import Mathlib

/-!
Verification of the ferrules PDF-parsing core against its specification.

The Rust sources are shallowly embedded: `f32` values are modelled as
exact rationals (`ℚ`), structs as Lean structures, fallible or panicking
code as `Except String`, and the stateful loops as folds / recursion.
Definitions follow the source files:
  * `ferrules-core/src/entities.rs`      — geometry, elements, lines
  * `ferrules-core/src/layout/model.rs`  — layout labels, NMS, bbox extraction
  * `ferrules-core/src/parse/merge.rs`   — line/element and element/block merging
  * `ferrules-core/src/parse/page.rs`    — OCR decision, page assembly
  * `ferrules-core/src/parse/native.rs`  — native worker, page-range check
  * `ferrules-core/src/parse/document.rs`— document orchestration
  * `src/blocks.rs`                      — blocks and `Block::merge`
-/

namespace Ferrules

/-- Axis-aligned bounding box, `entities.rs` `BBox` (four `f32`, modelled as `ℚ`). -/
structure BBox where
  x0 : ℚ
  y0 : ℚ
  x1 : ℚ
  y1 : ℚ
deriving DecidableEq, Repr

namespace BBox

/-- `BBox::height`: `y1 - y0`. -/
def height (b : BBox) : ℚ := b.y1 - b.y0

/-- `BBox::width`: `x1 - x0`. -/
def width (b : BBox) : ℚ := b.x1 - b.x0

/-- `BBox::area`: `height * width`. -/
def area (b : BBox) : ℚ := b.height * b.width

/-- `BBox::center`. -/
def center (b : BBox) : ℚ × ℚ := (b.x0 + b.width / 2, b.y0 + b.height / 2)

/-- `BBox::merge`: expand `self` to the union box. -/
def merge (a other : BBox) : BBox :=
  { x0 := min a.x0 other.x0
    y0 := min a.y0 other.y0
    x1 := max a.x1 other.x1
    y1 := max a.y1 other.y1 }

/-- `BBox::overlap_x`: `max(0, min(x1, x1') - max(x0, x0'))`. -/
def overlapX (a other : BBox) : ℚ := max 0 (min a.x1 other.x1 - max a.x0 other.x0)

/-- `BBox::overlap_y`. -/
def overlapY (a other : BBox) : ℚ := max 0 (min a.y1 other.y1 - max a.y0 other.y0)

/-- `BBox::intersection`: `overlap_x * overlap_y`. -/
def intersectionArea (a other : BBox) : ℚ := a.overlapX other * a.overlapY other

/-- `BBox::union`: `other.area + self.area - intersection`. -/
def unionArea (a other : BBox) : ℚ := other.area + a.area - a.intersectionArea other

/-- `BBox::iou`: `intersection / union` (in `ℚ`, division by zero yields 0;
in the `f32` source it yields NaN or infinity). -/
def iou (a other : BBox) : ℚ := a.intersectionArea other / a.unionArea other

/-- `BBox::relaxed_iou`: `intersection / min(area, area')`. -/
def relaxed_iou (a other : BBox) : ℚ :=
  a.intersectionArea other / min a.area other.area

/-- `BBox::distance`: axis-weighted squared centroid distance. -/
def distance (a other : BBox) (xWeight yWeight : ℚ) : ℚ :=
  ((a.center.1 - other.center.1) ^ 2) * xWeight + ((a.center.2 - other.center.2) ^ 2) * yWeight

/-- `BBox::contains` (non-strict inequalities). -/
def contains (a other : BBox) : Bool :=
  other.x0 ≥ a.x0 && other.y0 ≥ a.y0 && other.x1 ≤ a.x1 && other.y1 ≤ a.y1

end BBox

/-- A box is nondegenerate when both extents are strictly positive
(the spec data model only requires `x0 ≤ x1`, `y0 ≤ y1`). -/
def BBox.proper (b : BBox) : Prop := b.x0 < b.x1 ∧ b.y0 < b.y1

/-! ## Layout model (`layout/model.rs`) -/

/-- The closed set of 11 detector labels (`ID2LABEL`); the source represents
them as `&'static str` drawn from this set. -/
inductive Label where
  | caption
  | footnote
  | formula
  | listItem
  | pageFooter
  | pageHeader
  | picture
  | sectionHeader
  | table
  | text
  | title
deriving DecidableEq, Repr

/-- `ID2LABEL`, in source order. -/
def ID2LABEL : List Label :=
  [.caption, .footnote, .formula, .listItem, .pageFooter, .pageHeader,
   .picture, .sectionHeader, .table, .text, .title]

/-- `LayoutBBox`: `{id: i32, bbox, label, proba: f32}`. -/
structure LayoutBBox where
  id : Int
  bbox : BBox
  label : Label
  proba : ℚ
deriving DecidableEq, Repr

/-- `LayoutBBox::is_text_block`: the source compares the label string against
the nine textual labels. -/
def LayoutBBox.is_text_block (b : LayoutBBox) : Bool :=
  b.label == .text || b.label == .caption || b.label == .footnote ||
  b.label == .formula || b.label == .listItem || b.label == .pageFooter ||
  b.label == .pageHeader || b.label == .sectionHeader || b.label == .title

/-- `CONF_THRESHOLD = 0.3`. -/
def CONF_THRESHOLD : ℚ := 3 / 10

/-- `IOU_THRESHOLD = 0.8`. -/
def IOU_THRESHOLD : ℚ := 8 / 10

/-- `REQUIRED_WIDTH = 1024`. -/
def REQUIRED_WIDTH : ℚ := 1024

/-- `REQUIRED_HEIGHT = 1024`. -/
def REQUIRED_HEIGHT : ℚ := 1024

/-- Descending-probability order used by `nms`'s
`sort_by(|r1, r2| r2.proba.partial_cmp(&r1.proba).unwrap())`. -/
def probaGe (a b : LayoutBBox) : Prop := b.proba ≤ a.proba

instance : DecidableRel probaGe := fun a b => inferInstanceAs (Decidable (b.proba ≤ a.proba))

instance : IsTotal LayoutBBox probaGe := ⟨fun a b => le_total b.proba a.proba⟩

instance : IsTrans LayoutBBox probaGe := ⟨fun _ _ _ h1 h2 => le_trans h2 h1⟩

/-- Rust's `sort_by` is a stable sort; insertion sort is the (unique) stable
sorting function for this total preorder, so it models it exactly. -/
def sortByProbaDesc (l : List LayoutBBox) : List LayoutBBox :=
  List.insertionSort probaGe l

/-- The sweep inside `nms`: walk the sorted boxes, keep a box iff no
already-kept box has `relaxed_iou` strictly above the threshold.  The
in-place swap/truncate of the source compacts kept boxes to the front in
encounter order, which is exactly this accumulator. -/
def nmsSweep (t : ℚ) : List LayoutBBox → List LayoutBBox → List LayoutBBox
  | [], kept => kept
  | b :: rest, kept =>
    if kept.any (fun prev => decide (t < prev.bbox.relaxed_iou b.bbox)) then
      nmsSweep t rest kept
    else
      nmsSweep t rest (kept ++ [b])

/-- `nms(raw_bboxes, iou_threshold)` from `layout/model.rs`. -/
def nms (raw_bboxes : List LayoutBBox) (iou_threshold : ℚ) : List LayoutBBox :=
  nmsSweep iou_threshold (sortByProbaDesc raw_bboxes) []

/-- One anchor column of the `1×15×A` output tensor: 4 box coordinates
(`cx, cy, w, h`) followed by the 11 class scores. -/
structure Pred where
  cx : ℚ
  cy : ℚ
  w : ℚ
  h : ℚ
  classes : List ℚ
deriving DecidableEq, Repr

/-- Tail of `lastArgmax`: `bi, bv` is the current best indexed value and `i`
the index of the head of the remaining list. -/
def lastArgmaxGo (bi : Nat) (bv : ℚ) (i : Nat) : List ℚ → Nat × ℚ
  | [] => (bi, bv)
  | x :: xs => if bv ≤ x then lastArgmaxGo i x (i + 1) xs else lastArgmaxGo bi bv (i + 1) xs

/-- `classes.iter().enumerate().max_by(...)`: Rust's `max_by` returns the
last maximal element, so ties go to the larger index. -/
def lastArgmax : List ℚ → Option (Nat × ℚ)
  | [] => none
  | v :: rest => some (lastArgmaxGo 0 v 1 rest)

/-- The per-anchor body of `extract_bboxes` (everything except the id):
argmax class, confidence filter, rescale by `1/ratio`, clip to the page,
reject inverted boxes, scale by the caller's rescale factor. -/
def extractStep (originalWidth originalHeight rescale_factor : ℚ) (p : Pred) :
    Option (BBox × Label × ℚ) := do
  let (max_prob_idx, proba) ← lastArgmax p.classes
  if proba < CONF_THRESHOLD then none else
  let label ← ID2LABEL.get? max_prob_idx
  let r := min (REQUIRED_WIDTH / originalWidth) (REQUIRED_HEIGHT / originalHeight)
  let xc := p.cx / r
  let yc := p.cy / r
  let w := p.w / r
  let h := p.h / r
  let x0 := max (min (xc - w / 2) originalWidth) 0
  let y0 := max (min (yc - h / 2) originalHeight) 0
  let x1 := min (max (xc + w / 2) 0) originalWidth
  let y1 := min (max (yc + h / 2) 0) originalHeight
  if x0 > x1 || y0 > y1 then none else
  some (⟨x0 * rescale_factor, y0 * rescale_factor,
         x1 * rescale_factor, y1 * rescale_factor⟩, label, proba)

/-- The accumulation loop of `extract_bboxes`: `bbox_id` increments only
when a box is pushed. -/
def extractAux (originalWidth originalHeight rescale_factor : ℚ) :
    Int → List Pred → List LayoutBBox
  | _, [] => []
  | c, p :: rest =>
    match extractStep originalWidth originalHeight rescale_factor p with
    | none => extractAux originalWidth originalHeight rescale_factor c rest
    | some (bb, label, proba) =>
      { id := c, bbox := bb, label := label, proba := proba } ::
        extractAux originalWidth originalHeight rescale_factor (c + 1) rest

/-- `ORTLayoutParser::extract_bboxes` over the anchor list. -/
def extract_bboxes (preds : List Pred) (originalWidth originalHeight rescale_factor : ℚ) :
    List LayoutBBox :=
  extractAux originalWidth originalHeight rescale_factor 0 preds

/-- `ORTLayoutParser::parse_layout_async` post-processing: extraction then NMS. -/
def parse_layout (preds : List Pred) (originalWidth originalHeight rescale_factor : ℚ) :
    List LayoutBBox :=
  nms (extract_bboxes preds originalWidth originalHeight rescale_factor) IOU_THRESHOLD

/-- Replace a box's label, leaving geometry and probability unchanged. -/
def relabel (f : Label → Label) (b : LayoutBBox) : LayoutBBox := { b with label := f b.label }

/-! ## Elements and lines (`entities.rs`) -/

/-- `ElementType` from `entities.rs`. -/
inductive ElementType where
  | header
  | footNote
  | footer
  | text
  | title
  | subtitle
  | listItem
  | caption
  | image
  | table
deriving DecidableEq, Repr

/-- `ElementText`: the accumulated text of an element. -/
structure ElementText where
  text : String
deriving DecidableEq, Repr

/-- `ElementText::is_empty`. -/
def ElementText.is_empty (t : ElementText) : Bool := t.text.isEmpty

/-- `ElementText::push_first`. -/
def ElementText.push_first (t : ElementText) (txt : String) : ElementText :=
  { text := t.text ++ txt }

/-- `ElementText::append_line`: always inserts a single space separator. -/
def ElementText.append_line (t : ElementText) (txt : String) : ElementText :=
  { text := t.text ++ " " ++ txt }

/-- A text line (`entities.rs` `Line`).  The `spans` field is omitted: none
of the operations modelled here reads it (the OCR conversion sets it empty
and the merge phase only uses `text` and `bbox`). -/
structure Line where
  text : String
  bbox : BBox
  rotation : ℚ
deriving DecidableEq, Repr

/-- An OCR result line (`ocr/mod.rs`). -/
structure OCRLine where
  text : String
  confidence : ℚ
  bbox : BBox
deriving DecidableEq, Repr

/-- `OCRLine::to_line`: rotation 0, no spans. -/
def OCRLine.to_line (l : OCRLine) : Line :=
  { text := l.text, bbox := l.bbox, rotation := 0 }

/-- `Element` from `entities.rs`. -/
structure Element where
  id : Nat
  layout_block_id : Int
  text_block : ElementText
  kind : ElementType
  page_id : Nat
  bbox : BBox
deriving DecidableEq, Repr

/-- `Element::from_layout_block`: the label→kind mapping (total on the
closed label set; the source marks other labels unreachable). -/
def Element.from_layout_block (id : Nat) (layout_block : LayoutBBox) (page_id : Nat) :
    Element :=
  let kind : ElementType :=
    match layout_block.label with
    | .caption => .caption
    | .formula => .text
    | .text => .text
    | .listItem => .listItem
    | .footnote => .footNote
    | .pageFooter => .footer
    | .pageHeader => .header
    | .title => .title
    | .sectionHeader => .subtitle
    | .table => .table
    | .picture => .image
  { id := id, kind := kind, layout_block_id := layout_block.id, page_id := page_id,
    text_block := ⟨""⟩, bbox := layout_block.bbox }

/-- `Element::push_line`. -/
def Element.push_line (e : Element) (line : Line) : Element :=
  if e.text_block.is_empty then
    { e with text_block := e.text_block.push_first line.text }
  else
    { e with text_block := e.text_block.append_line line.text }

/-! ## Line/element merging (`parse/merge.rs`) -/

/-- `MIN_INTERSECTION_LAYOUT = 0.5`. -/
def MIN_INTERSECTION_LAYOUT : ℚ := 1 / 2

/-- `LAYOUT_DISTANCE_X_WEIGHT = 5.0`. -/
def LAYOUT_DISTANCE_X_WEIGHT : ℚ := 5

/-- `LAYOUT_DISTANCE_Y_WEIGHT = 1.0`. -/
def LAYOUT_DISTANCE_Y_WEIGHT : ℚ := 1

/-- `MAXIMUM_ASSIGNMENT_DISTANCE = 20.0`. -/
def MAXIMUM_ASSIGNMENT_DISTANCE : ℚ := 20

/-- Rust `Iterator::max_by`: the last maximal element wins ties. -/
def maxByLast (f : α → ℚ) : List α → Option α :=
  List.foldl
    (fun best x =>
      match best with
      | none => some x
      | some b => if f b ≤ f x then some x else some b)
    none

/-- Rust `Iterator::min_by`: the first minimal element wins ties. -/
def minByFirst (f : α → ℚ) : List α → Option α :=
  List.foldl
    (fun best x =>
      match best with
      | none => some x
      | some b => if f x < f b then some x else some b)
    none

/-- Replace the first element satisfying `p` (the `iter_mut().find` in
`merge_or_create_elements`); `none` when no element matches. -/
def updateFirst (p : α → Prop) [DecidablePred p] (f : α → α) : List α → Option (List α)
  | [] => none
  | x :: rest => if p x then some (f x :: rest) else (updateFirst p f rest).map (x :: ·)

/-- `merge_or_create_elements` from `parse/merge.rs`: when the bucket is
empty, an element is synthesized, the line pushed, and the element pushed
into the bucket; then the first element with the line's layout-block id is
looked up and the line pushed into it (so in the empty case the line is
pushed twice, see C4); when no element matches, a fresh element with id
`len + 1` is appended. -/
def merge_or_create_elements (elements : List Element) (line : Line)
    (line_layout_block : LayoutBBox) (page_id : Nat) : List Element :=
  let elements :=
    if elements.isEmpty then
      elements ++ [(Element.from_layout_block 0 line_layout_block page_id).push_line line]
    else elements
  match updateFirst (fun e => e.layout_block_id = line_layout_block.id)
      (fun e => e.push_line line) elements with
  | some updated => updated
  | none =>
    elements ++
      [(Element.from_layout_block (elements.length + 1) line_layout_block page_id).push_line
        line]

/-- The per-line matching of `merge_lines_layout`: best-overlap block if its
intersection ratio with the line exceeds 0.5, otherwise the nearest block if
its weighted distance is below 20, otherwise none (line dropped). -/
def lineMatch (layout_boxes : List LayoutBBox) (line : Line) : Option LayoutBBox :=
  let max_intersection_bbox :=
    maxByLast (fun a => a.bbox.intersectionArea line.bbox) layout_boxes
  let min_distance_block :=
    minByFirst
      (fun a => a.bbox.distance line.bbox LAYOUT_DISTANCE_X_WEIGHT LAYOUT_DISTANCE_Y_WEIGHT)
      layout_boxes
  let max_intersection_bbox := max_intersection_bbox.bind fun b =>
    if line.bbox.intersectionArea b.bbox / line.bbox.area > MIN_INTERSECTION_LAYOUT then
      some b
    else none
  match max_intersection_bbox with
  | none =>
    min_distance_block.bind fun b =>
      if b.bbox.distance line.bbox LAYOUT_DISTANCE_X_WEIGHT LAYOUT_DISTANCE_Y_WEIGHT <
          MAXIMUM_ASSIGNMENT_DISTANCE then
        some b
      else none
  | some b => some b

/-- One iteration of the routing loop in `merge_lines_layout`: the matched
line goes into the header, body or footer bucket by the matched block's
label; unmatched lines are dropped. -/
def mergeLinesStep (layout_boxes : List LayoutBBox) (page_id : Nat)
    (acc : List Element × List Element × List Element) (line : Line) :
    List Element × List Element × List Element :=
  let (headers, elements, footers) := acc
  match lineMatch layout_boxes line with
  | some lb =>
    match lb.label with
    | .pageHeader => (merge_or_create_elements headers line lb page_id, elements, footers)
    | .pageFooter => (headers, elements, merge_or_create_elements footers line lb page_id)
    | _ => (headers, merge_or_create_elements elements line lb page_id, footers)
  | none => (headers, elements, footers)

/-- `merge_lines_layout` from `parse/merge.rs`: route each matched line into
its bucket, then return `headers ++ body ++ footers` (the source appends
`footers` to the body and the result to `headers`). -/
def merge_lines_layout (layout_boxes : List LayoutBBox) (lines : List Line)
    (page_id : Nat) : List Element :=
  let state := lines.foldl (mergeLinesStep layout_boxes page_id) ([], [], [])
  state.1 ++ (state.2.1 ++ state.2.2)

/-- `Vec::insert` at a position that is at most the length. -/
def insertAt (n : Nat) (a : α) : List α → List α
  | [] => [a]
  | x :: xs =>
    match n with
    | 0 => a :: x :: xs
    | m + 1 => x :: insertAt m a xs

/-- Index of the first distance-minimizing element
(`iter().enumerate().min_by(...)` in `merge_remaining`). -/
def firstArgminIdx (f : α → ℚ) (l : List α) : Option Nat :=
  (minByFirst (fun p => f p.2) l.enum).map (·.1)

/-- `merge_remaining` from `parse/merge.rs`: insert each unmatched layout
box, with id equal to the current element count, at the position of the
distance-minimizing element (at the end when the list is empty). -/
def merge_remaining (elements : List Element) (remaining : List LayoutBBox)
    (page_id : Nat) : List Element :=
  remaining.foldl
    (fun elements layout_box =>
      let closest_block :=
        (firstArgminIdx
            (fun a =>
              a.bbox.distance layout_box.bbox LAYOUT_DISTANCE_X_WEIGHT
                LAYOUT_DISTANCE_Y_WEIGHT)
            elements).getD
          elements.length
      insertAt closest_block (Element.from_layout_block elements.length layout_box page_id)
        elements)
    elements

/-! ## Page assembly (`parse/page.rs`) -/

/-- `MIN_LAYOUT_COVERAGE_THRESHOLD = 0.5`. -/
def MIN_LAYOUT_COVERAGE_THRESHOLD : ℚ := 1 / 2

/-- `page_needs_ocr` from `parse/page.rs`. -/
def page_needs_ocr (text_boxes : List LayoutBBox) (text_lines : List Line) : Bool :=
  let line_area := (text_lines.map (fun l => l.bbox.area)).sum
  let text_layoutbbox_area := (text_boxes.map (fun l => l.bbox.area)).sum
  if text_layoutbbox_area > 0 then
    decide (line_area / text_layoutbbox_area < MIN_LAYOUT_COVERAGE_THRESHOLD)
  else
    true

/-- `parse_page_text` from `parse/page.rs`.  The OCR backend call
`parse_image_ocr(..).ok()` is abstracted by the `ocr_result` argument: it is
consulted only when `need_ocr` holds, and on success its lines replace the
native ones. -/
def parse_page_text (native_text_lines : List Line) (page_layout : List LayoutBBox)
    (ocr_result : Option (List OCRLine)) : List Line × Bool :=
  let text_layout_box := page_layout.filter (fun b => b.is_text_block)
  let need_ocr := page_needs_ocr text_layout_box native_text_lines
  let ocr_result := if need_ocr then ocr_result else none
  let lines :=
    if need_ocr ∧ ocr_result.isSome then
      (ocr_result.getD []).map (fun ocr_line => ocr_line.to_line)
    else native_text_lines
  (lines, need_ocr)

/-- `build_page_elements` from `parse/page.rs`. -/
def build_page_elements (page_layout : List LayoutBBox) (text_lines : List Line)
    (page_idx : Nat) : List Element :=
  let elements := merge_lines_layout page_layout text_lines page_idx
  let merged_layout_blocks_ids := elements.map (fun e => e.layout_block_id)
  let unmerged_layout_boxes :=
    page_layout.filter (fun b => ¬ merged_layout_blocks_ids.contains b.id)
  merge_remaining elements unmerged_layout_boxes page_idx

/-! ## Blocks (`src/blocks.rs`) -/

/-- `TextBlock`. -/
structure TextBlock where
  text : String
deriving DecidableEq, Repr

/-- `List` (the list-block payload; renamed to avoid clashing with
`List`). -/
structure ListBlock where
  items : List String
deriving DecidableEq, Repr

/-- `Title` (block payload). -/
structure Title where
  level : Nat
  text : String
deriving DecidableEq, Repr

/-- `ImageBlock`. -/
structure ImageBlock where
  caption : Option String
deriving DecidableEq, Repr

/-- `BlockType`. -/
inductive BlockType where
  | header (t : TextBlock)
  | footer (t : TextBlock)
  | title (t : Title)
  | listBlock (l : ListBlock)
  | textBlock (t : TextBlock)
  | image (i : ImageBlock)
  | table
deriving DecidableEq, Repr

/-- `Block`. -/
structure Block where
  id : Nat
  kind : BlockType
  pages_id : List Nat
  bbox : BBox
deriving DecidableEq, Repr

/-- `Block::merge` from `src/blocks.rs`.  Panics (`todo!()`, modelled as an
error) for Header, Footer, Title, Image and Table blocks; merging into a
TextBlock appends with a newline and requires a Text element, merging into
a ListBlock appends an item and requires a ListItem element. -/
def Block.mergeEl (b : Block) (element : Element) : Except String Block :=
  match b.kind with
  | .textBlock t =>
    match element.kind with
    | .text =>
      .ok { b with
            bbox := b.bbox.merge element.bbox
            kind := .textBlock ⟨t.text ++ "\n" ++ element.text_block.text⟩ }
    | _ => .error "cannot merge element in textblock"
  | .listBlock l =>
    match element.kind with
    | .listItem =>
      .ok { b with
            bbox := b.bbox.merge element.bbox
            kind := .listBlock ⟨l.items ++ [element.text_block.text]⟩ }
    | _ => .error "cannot merge element in Listblock"
  | .header _ => .error "panic in Block merge: not yet implemented"
  | .footer _ => .error "panic in Block merge: not yet implemented"
  | .title _ => .error "panic in Block merge: not yet implemented"
  | .image _ => .error "panic in Block merge: not yet implemented"
  | .table => .error "panic in Block merge: not yet implemented"

/-! ## Element→block merging (`parse/merge.rs`, `merge_elements_into_blocks`) -/

/-- A TextBlock block from an element. -/
def textBlockOf (block_id : Nat) (e : Element) : Block :=
  { id := block_id, kind := .textBlock ⟨e.text_block.text⟩,
    pages_id := [e.page_id], bbox := e.bbox }

/-- A List block seeded with an element's text. -/
def listBlockOf (block_id : Nat) (e : Element) : Block :=
  { id := block_id, kind := .listBlock ⟨[e.text_block.text]⟩,
    pages_id := [e.page_id], bbox := e.bbox }

/-- A Header block from an element. -/
def headerBlockOf (block_id : Nat) (e : Element) : Block :=
  { id := block_id, kind := .header ⟨e.text_block.text⟩,
    pages_id := [e.page_id], bbox := e.bbox }

/-- A Footer block from an element. -/
def footerBlockOf (block_id : Nat) (e : Element) : Block :=
  { id := block_id, kind := .footer ⟨e.text_block.text⟩,
    pages_id := [e.page_id], bbox := e.bbox }

/-- A Title block from an element; the source hardcodes level 0 (see C2). -/
def titleBlockOf (block_id : Nat) (e : Element) : Block :=
  { id := block_id, kind := .title ⟨0, e.text_block.text⟩,
    pages_id := [e.page_id], bbox := e.bbox }

/-- An Image block with no caption from an element. -/
def imageBlockOf (block_id : Nat) (e : Element) : Block :=
  { id := block_id, kind := .image ⟨none⟩, pages_id := [e.page_id], bbox := e.bbox }

/-- The greedy `while let Some(next_el) = element_it.peek()` runs of the
ListItem, Header and Footer cases: keep consuming elements of kind `k`,
merging each into the block with `Block::merge`.  The returned suffix
carries its length bound so the main recursion is well founded. -/
def greedyRun (k : ElementType) (blk : Block) :
    (l : List Element) → Except String (Block × { l' : List Element // l'.length ≤ l.length })
  | [] => .ok (blk, ⟨[], Nat.le_refl 0⟩)
  | next :: rest =>
    if next.kind = k then
      match blk.mergeEl next with
      | .error e => .error e
      | .ok blk' =>
        match greedyRun k blk' rest with
        | .error e => .error e
        | .ok (b, ⟨l', h⟩) => .ok (b, ⟨l', Nat.le_succ_of_le h⟩)
    else .ok (blk, ⟨next :: rest, Nat.le_refl _⟩)

/-- The Caption/Footnote lookahead loop of `merge_elements_into_blocks`:
concatenate consecutive Caption/Footnote texts with single spaces; on a
following Image emit an Image block with the accumulated caption and the
merge of the (first) caption's bbox with the image's bbox; otherwise emit a
TextBlock (consuming nothing further). -/
def captionLoop (curr : Element) (block_id : Nat) :
    (l : List Element) → Block × { l' : List Element // l'.length ≤ l.length }
  | [] => (textBlockOf block_id curr, ⟨[], Nat.le_refl 0⟩)
  | next :: rest =>
    match next.kind with
    | .footNote =>
      let r := captionLoop { curr with text_block := curr.text_block.append_line next.text_block.text }
        block_id rest
      (r.1, ⟨r.2.1, Nat.le_succ_of_le r.2.2⟩)
    | .caption =>
      let r := captionLoop { curr with text_block := curr.text_block.append_line next.text_block.text }
        block_id rest
      (r.1, ⟨r.2.1, Nat.le_succ_of_le r.2.2⟩)
    | .image =>
      ({ id := block_id, kind := .image ⟨some curr.text_block.text⟩,
         pages_id := [next.page_id], bbox := curr.bbox.merge next.bbox },
       ⟨rest, Nat.le_succ_of_le (Nat.le_refl _)⟩)
    | _ => (textBlockOf block_id curr, ⟨next :: rest, Nat.le_refl _⟩)

/-- The main loop of `merge_elements_into_blocks`, with the running
`block_id`. -/
def mergeAux : (l : List Element) → Nat → Except String (List Block)
  | [], _ => .ok []
  | curr :: rest, block_id =>
    match curr.kind with
    | .text => (mergeAux rest (block_id + 1)).map (textBlockOf block_id curr :: ·)
    | .listItem =>
      match greedyRun .listItem (listBlockOf block_id curr) rest with
      | .error e => .error e
      | .ok (blk, ⟨rest', _h⟩) => (mergeAux rest' (block_id + 1)).map (blk :: ·)
    | .footNote =>
      match captionLoop curr block_id rest with
      | (blk, ⟨rest', _h⟩) => (mergeAux rest' (block_id + 1)).map (blk :: ·)
    | .caption =>
      match captionLoop curr block_id rest with
      | (blk, ⟨rest', _h⟩) => (mergeAux rest' (block_id + 1)).map (blk :: ·)
    | .image =>
      match rest with
      | [] => .ok [imageBlockOf block_id curr]
      | next :: rest' =>
        match next.kind with
        | .footNote =>
          (mergeAux rest' (block_id + 1)).map
            (({ id := block_id, kind := .image ⟨some next.text_block.text⟩,
                pages_id := [curr.page_id], bbox := curr.bbox.merge next.bbox } : Block) :: ·)
        | .caption =>
          (mergeAux rest' (block_id + 1)).map
            (({ id := block_id, kind := .image ⟨some next.text_block.text⟩,
                pages_id := [curr.page_id], bbox := curr.bbox.merge next.bbox } : Block) :: ·)
        | _ => (mergeAux (next :: rest') (block_id + 1)).map (imageBlockOf block_id curr :: ·)
    | .header =>
      match greedyRun .header (headerBlockOf block_id curr) rest with
      | .error e => .error e
      | .ok (blk, ⟨rest', _h⟩) => (mergeAux rest' (block_id + 1)).map (blk :: ·)
    | .footer =>
      match greedyRun .footer (footerBlockOf block_id curr) rest with
      | .error e => .error e
      | .ok (blk, ⟨rest', _h⟩) => (mergeAux rest' (block_id + 1)).map (blk :: ·)
    | .title => (mergeAux rest (block_id + 1)).map (titleBlockOf block_id curr :: ·)
    | .subtitle => (mergeAux rest (block_id + 1)).map (titleBlockOf block_id curr :: ·)
    | .table => mergeAux rest block_id
termination_by l _ => l.length
decreasing_by
  all_goals simp_wf
  all_goals omega

/-- `merge_elements_into_blocks` from `parse/merge.rs` (panics modelled as
errors). -/
def merge_elements_into_blocks (elements : List Element) : Except String (List Block) :=
  mergeAux elements 0

/-! ## Native worker and document orchestration
(`parse/native.rs`, `parse/document.rs`).  Page images, rasterization and
timing metadata are omitted; the per-page native parse and the per-page
layout/assembly task are oracles, since their internals go through pdfium
and the detector session. -/

/-- `ParseNativePageResult` (images and metadata omitted). -/
structure NativePageResult where
  page_id : Nat
  text_lines : List Line
  page_bbox : BBox
  downscale_factor : ℚ
deriving DecidableEq, Repr

/-- `StructuredPage` (image omitted). -/
structure StructuredPage where
  id : Nat
  width : ℚ
  height : ℚ
  need_ocr : Bool
  elements : List Element
deriving DecidableEq, Repr

/-- Output `Page` (image omitted). -/
structure Page where
  id : Nat
  width : ℚ
  height : ℚ
  need_ocr : Bool
deriving DecidableEq, Repr

/-- `ParsedDocument` (metadata and debug path omitted). -/
structure ParsedDocument where
  doc_name : String
  pages : List Page
  blocks : List Block
deriving DecidableEq, Repr

/-- `handle_parse_native_req` (non-count mode): returns the list of messages
sent on the sink channel together with the worker's own result.  When the
range end exceeds the page count the worker bails *before* sending anything:
the error is returned to `start_native_parser`, which only logs it. -/
def handle_parse_native_req (pageCount : Nat)
    (parse_page_native : Nat → Except String NativePageResult)
    (page_range : Option (Nat × Nat)) :
    List (Except String NativePageResult) × Except String Unit :=
  match page_range with
  | some (s, e) =>
    if e > pageCount then
      ([], .error "Page range end exceeds document length")
    else
      ((((List.range pageCount).drop s).take (e - s)).map parse_page_native, .ok ())
  | none => ((List.range pageCount).map parse_page_native, .ok ())

/-- Ascending page-id order used by `parsed_pages.sort_by(...)`. -/
def pageIdLe (a b : StructuredPage) : Prop := a.id ≤ b.id

instance : DecidableRel pageIdLe := fun a b => inferInstanceAs (Decidable (a.id ≤ b.id))

instance : IsTotal StructuredPage pageIdLe := ⟨fun a b => Nat.le_total a.id b.id⟩

instance : IsTrans StructuredPage pageIdLe := ⟨fun _ _ _ h1 h2 => le_trans h1 h2⟩

/-- `FerrulesParser::parse_doc_pages` without cancellation: channel errors
are printed and skipped, per-page task failures are logged and the page
omitted, surviving pages are sorted by id.  (The join order of the task set
is nondeterministic in the source; it is irrelevant after the sort.) -/
def parse_doc_pages (msgs : List (Except String NativePageResult))
    (parse_task : NativePageResult → Except String StructuredPage) :
    List StructuredPage :=
  let parsed := msgs.foldl
    (fun acc msg =>
      match msg with
      | .ok r =>
        match parse_task r with
        | .ok page => acc ++ [page]
        | .error _ => acc
      | .error _ => acc)
    []
  List.insertionSort pageIdLe parsed

/-- `FerrulesParser::parse_document`: run the native worker, assemble pages,
flatten their elements and merge them into blocks.  (The source also feeds a
title-level map from `title_levels_kmeans` to a two-argument
`merge_elements_into_blocks`, but no such function exists in the tree; the
merger present, used here, takes the element list only — see C2.) -/
def parse_document (doc_name : String) (pageCount : Nat)
    (parse_page_native : Nat → Except String NativePageResult)
    (parse_task : NativePageResult → Except String StructuredPage)
    (page_range : Option (Nat × Nat)) : Except String ParsedDocument :=
  let msgs := (handle_parse_native_req pageCount parse_page_native page_range).1
  let parsed_pages := parse_doc_pages msgs parse_task
  let all_elements := (parsed_pages.map (fun p => p.elements)).flatten
  let doc_pages := parsed_pages.map (fun sp =>
    { id := sp.id, width := sp.width, height := sp.height,
      need_ocr := sp.need_ocr : Page })
  (merge_elements_into_blocks all_elements).map fun blocks =>
    { doc_name := doc_name, pages := doc_pages, blocks := blocks }

end Ferrules

open Ferrules

theorem Ferrules.BBox.overlapX_comm (a b : BBox) : a.overlapX b = b.overlapX a := by
  simp [overlapX, min_comm, max_comm]

theorem Ferrules.BBox.overlapY_comm (a b : BBox) : a.overlapY b = b.overlapY a := by
  simp [overlapY, min_comm, max_comm]

theorem Ferrules.BBox.intersectionArea_comm (a b : BBox) :
    a.intersectionArea b = b.intersectionArea a := by
  simp [intersectionArea, overlapX_comm, overlapY_comm]

theorem Ferrules.BBox.unionArea_comm (a b : BBox) : a.unionArea b = b.unionArea a := by
  simp [unionArea, intersectionArea_comm]; ring

theorem Ferrules.BBox.relaxed_iou_comm (a b : BBox) : a.relaxed_iou b = b.relaxed_iou a := by
  simp [relaxed_iou, intersectionArea_comm, min_comm]

theorem Ferrules.BBox.overlapX_nonneg (a b : BBox) : 0 ≤ a.overlapX b := le_max_left 0 _

theorem Ferrules.BBox.overlapY_nonneg (a b : BBox) : 0 ≤ a.overlapY b := le_max_left 0 _

theorem Ferrules.BBox.intersectionArea_nonneg (a b : BBox) : 0 ≤ a.intersectionArea b :=
  mul_nonneg (overlapX_nonneg a b) (overlapY_nonneg a b)

theorem Ferrules.BBox.overlapX_le_width (a b : BBox) (ha : 0 ≤ a.width) :
    a.overlapX b ≤ a.width := by
  refine max_le ha ?_
  have h1 : min a.x1 b.x1 ≤ a.x1 := min_le_left _ _
  have h2 : a.x0 ≤ max a.x0 b.x0 := le_max_left _ _
  simp only [width]
  linarith

theorem Ferrules.BBox.overlapY_le_height (a b : BBox) (ha : 0 ≤ a.height) :
    a.overlapY b ≤ a.height := by
  refine max_le ha ?_
  have h1 : min a.y1 b.y1 ≤ a.y1 := min_le_left _ _
  have h2 : a.y0 ≤ max a.y0 b.y0 := le_max_left _ _
  simp only [height]
  linarith

theorem Ferrules.BBox.intersectionArea_le_area (a b : BBox) (hw : 0 ≤ a.width)
    (hh : 0 ≤ a.height) : a.intersectionArea b ≤ a.area := by
  have hx := overlapX_le_width a b hw
  have hy := overlapY_le_height a b hh
  have := mul_le_mul hx hy (overlapY_nonneg a b) hw
  simpa [intersectionArea, area, mul_comm] using this

theorem Ferrules.nmsSweep_append (t : ℚ) (l : List LayoutBBox) :
    ∀ kept, ∃ s, nmsSweep t l kept = kept ++ s ∧ s.Sublist l := by
  induction l with
  | nil => exact fun kept => ⟨[], by simp [nmsSweep], List.nil_sublist []⟩
  | cons b rest ih =>
    intro kept
    rw [nmsSweep]
    split
    · obtain ⟨s, hs, hsub⟩ := ih kept
      exact ⟨s, hs, hsub.cons b⟩
    · obtain ⟨s, hs, hsub⟩ := ih (kept ++ [b])
      exact ⟨b :: s, by simpa using hs, hsub.cons₂ b⟩

theorem Ferrules.nmsSweep_pairwise (t : ℚ) (l : List LayoutBBox) :
    ∀ kept, kept.Pairwise (fun a c => a.bbox.relaxed_iou c.bbox ≤ t) →
      (nmsSweep t l kept).Pairwise (fun a c => a.bbox.relaxed_iou c.bbox ≤ t) := by
  induction l with
  | nil => intro kept h; simpa [nmsSweep] using h
  | cons b rest ih =>
    intro kept h
    rw [nmsSweep]
    split
    · exact ih kept h
    · rename_i hany
      apply ih
      rw [List.pairwise_append]
      refine ⟨h, List.pairwise_singleton _ b, ?_⟩
      intro k hk x hx
      rw [List.mem_singleton] at hx
      subst hx
      simp only [List.any_eq_true, decide_eq_true_eq, not_exists, not_and] at hany
      exact not_lt.mp (hany k hk)

theorem Ferrules.mem_nms_of_strict_max (l : List LayoutBBox) (t : ℚ) (b : LayoutBBox)
    (hb : b ∈ l) (hmax : ∀ b' ∈ l, b' = b ∨ b'.proba < b.proba) :
    b ∈ nms l t := by
  have hperm : (sortByProbaDesc l).Perm l := List.perm_insertionSort probaGe l
  have hbs : b ∈ sortByProbaDesc l := hperm.mem_iff.mpr hb
  obtain ⟨h, tl, hs⟩ : ∃ h tl, sortByProbaDesc l = h :: tl := by
    cases hcase : sortByProbaDesc l with
    | nil => rw [hcase] at hbs; simp at hbs
    | cons h tl => exact ⟨h, tl, rfl⟩
  have hsorted : (sortByProbaDesc l).Sorted probaGe :=
    List.sorted_insertionSort probaGe l
  have hh : h = b := by
    have hhl : h ∈ l := hperm.mem_iff.mp (hs ▸ List.mem_cons_self h tl)
    rcases hmax h hhl with he | hlt
    · exact he
    · rw [hs] at hbs hsorted
      rcases List.mem_cons.mp hbs with he | htl
      · subst he; exact absurd hlt (lt_irrefl _)
      · have hge : probaGe h b := (List.sorted_cons.mp hsorted).1 b htl
        exact absurd hlt (not_lt.mpr hge)

  subst hh
  unfold nms
  rw [hs, nmsSweep]
  rw [if_neg (by simp)]
  simp only [List.nil_append]
  obtain ⟨s, hsw, _⟩ := nmsSweep_append t tl [h]
  rw [hsw]
  simp

theorem Ferrules.orderedInsert_map_relabel (f : Label → Label) (a : LayoutBBox)
    (l : List LayoutBBox) :
    List.orderedInsert probaGe (relabel f a) (l.map (relabel f)) =
      (List.orderedInsert probaGe a l).map (relabel f) := by
  induction l with
  | nil => simp [List.orderedInsert]
  | cons x xs ih =>
    simp only [List.map_cons, List.orderedInsert]
    by_cases hc : probaGe a x
    · have hc' : probaGe (relabel f a) (relabel f x) := hc
      rw [if_pos hc', if_pos hc, List.map_cons, List.map_cons]
    · have hc' : ¬ probaGe (relabel f a) (relabel f x) := hc
      rw [if_neg hc', if_neg hc, List.map_cons, ih]

theorem Ferrules.insertionSort_map_relabel (f : Label → Label) (l : List LayoutBBox) :
    List.insertionSort probaGe (l.map (relabel f)) =
      (List.insertionSort probaGe l).map (relabel f) := by
  induction l with
  | nil => simp
  | cons x xs ih =>
    simp only [List.map_cons, List.insertionSort, ih, orderedInsert_map_relabel]

theorem Ferrules.nmsSweep_map_relabel (f : Label → Label) (t : ℚ) (l : List LayoutBBox) :
    ∀ kept, nmsSweep t (l.map (relabel f)) (kept.map (relabel f)) =
      (nmsSweep t l kept).map (relabel f) := by
  induction l with
  | nil => intro kept; simp [nmsSweep]
  | cons b rest ih =>
    intro kept
    rw [List.map_cons, nmsSweep, nmsSweep]
    have hcond :
        (kept.map (relabel f)).any
            (fun prev => decide (t < prev.bbox.relaxed_iou (relabel f b).bbox)) =
          kept.any (fun prev => decide (t < prev.bbox.relaxed_iou b.bbox)) := by
      rw [List.any_map]
      rfl
    rw [hcond]
    split
    · exact ih kept
    · have hk : kept.map (relabel f) ++ [relabel f b] = (kept ++ [b]).map (relabel f) := by
        simp
      rw [hk, ih (kept ++ [b])]

/-- C7: after NMS with threshold `t`, (i) no two surviving boxes have
`relaxed_iou` strictly greater than `t`, (ii) the input box with the
(strictly) highest probability always survives, and (iii) suppression never
consults the boxes' labels: relabelling commutes with `nms`. -/
theorem C7_nms_stability (l : List LayoutBBox) (t : ℚ) (b : LayoutBBox)
    (hb : b ∈ l) (hmax : ∀ b' ∈ l, b' = b ∨ b'.proba < b.proba) (f : Label → Label) :
    (nms l t).Pairwise
        (fun a c => a.bbox.relaxed_iou c.bbox ≤ t ∧ c.bbox.relaxed_iou a.bbox ≤ t) ∧
      b ∈ nms l t ∧
      nms (l.map (relabel f)) t = (nms l t).map (relabel f) := by
  refine ⟨?_, mem_nms_of_strict_max l t b hb hmax, ?_⟩
  · have hp := nmsSweep_pairwise t (sortByProbaDesc l) [] List.Pairwise.nil
    exact hp.imp (fun h => ⟨h, by rwa [BBox.relaxed_iou_comm]⟩)
  · unfold nms sortByProbaDesc
    rw [insertionSort_map_relabel]
    have := nmsSweep_map_relabel f t (List.insertionSort probaGe l) []
    simpa using this

/-- C7 witness: two disjoint boxes; the strictly-highest-probability box
survives, the survivors do not overlap above the threshold, and relabelling
everything to `Table` commutes with NMS. -/
theorem C7_nms_stability_witness :
    let a : LayoutBBox := ⟨0, ⟨0, 0, 1, 1⟩, .text, 9 / 10⟩
    let b : LayoutBBox := ⟨1, ⟨2, 2, 3, 3⟩, .title, 1 / 2⟩
    (nms [a, b] (8 / 10)).Pairwise
        (fun x c => x.bbox.relaxed_iou c.bbox ≤ 8 / 10 ∧ c.bbox.relaxed_iou x.bbox ≤ 8 / 10) ∧
      a ∈ nms [a, b] (8 / 10) ∧
      nms ([a, b].map (relabel fun _ => .table)) (8 / 10) =
        (nms [a, b] (8 / 10)).map (relabel fun _ => .table) := by
  intro a b
  refine C7_nms_stability [a, b] (8 / 10) a (by simp) ?_ (fun _ => .table)
  intro b' hb'
  rcases List.mem_cons.mp hb' with h | h
  · exact Or.inl h
  · right
    rw [List.mem_singleton.mp h]
    norm_num


open Ferrules

/-- C10 counterexample: the claim quantifies over all boxes with `x0 ≤ x1` and
`y0 ≤ y1`; a degenerate box `z` with zero area satisfies that contract, yet
`iou(z,z) ≠ 1` (in the `f32` source `0.0/0.0` is NaN; in the exact model it is 0). -/
theorem C10_counterexample :
    let z : BBox := ⟨0, 0, 0, 0⟩
    z.x0 ≤ z.x1 ∧ z.y0 ≤ z.y1 ∧ z.iou z ≠ 1 := by
  refine ⟨le_refl _, le_refl _, ?_⟩
  norm_num [BBox.iou, BBox.intersectionArea, BBox.unionArea, BBox.overlapX,
    BBox.overlapY, BBox.area, BBox.width, BBox.height]

/-- C10 (amended): for boxes with strictly positive extents,
`0 ≤ iou(a,b) = iou(b,a) ≤ 1`, `iou(a,a) = 1`, and boxes with empty
intersection have `iou(a,b) = 0`. -/
theorem C10_iou_bounds (a b : BBox) (ha : a.proper) (hb : b.proper) :
    0 ≤ a.iou b ∧ a.iou b ≤ 1 ∧ a.iou b = b.iou a ∧ a.iou a = 1 ∧
      (a.intersectionArea b = 0 → a.iou b = 0) := by
  obtain ⟨hax, hay⟩ := ha
  obtain ⟨hbx, hby⟩ := hb
  have haw : 0 < a.width := by simp [BBox.width]; linarith
  have hah : 0 < a.height := by simp [BBox.height]; linarith
  have hbw : 0 < b.width := by simp [BBox.width]; linarith
  have hbh : 0 < b.height := by simp [BBox.height]; linarith
  have haA : 0 < a.area := mul_pos hah haw
  have hbA : 0 < b.area := mul_pos hbh hbw
  have hIa : a.intersectionArea b ≤ a.area :=
    BBox.intersectionArea_le_area a b haw.le hah.le
  have hIb : a.intersectionArea b ≤ b.area := by
    have := BBox.intersectionArea_le_area b a hbw.le hbh.le
    simpa [BBox.intersectionArea_comm] using this
  have hI0 : 0 ≤ a.intersectionArea b := BBox.intersectionArea_nonneg a b
  have hU : 0 < a.unionArea b := by
    simp only [BBox.unionArea]; linarith
  refine ⟨div_nonneg hI0 hU.le, ?_, ?_, ?_, ?_⟩
  · rw [BBox.iou, div_le_one hU]
    simp only [BBox.unionArea]; linarith
  · simp [BBox.iou, BBox.intersectionArea_comm, BBox.unionArea_comm]
  · have hIaa : a.intersectionArea a = a.area := by
      have hx : a.overlapX a = a.width := by
        simp [BBox.overlapX, BBox.width]
        linarith
      have hy : a.overlapY a = a.height := by
        simp [BBox.overlapY, BBox.height]
        linarith
      simp [BBox.intersectionArea, hx, hy, BBox.area, mul_comm]
    have hUaa : a.unionArea a = a.area := by
      simp [BBox.unionArea, hIaa]
    rw [BBox.iou, hIaa, hUaa, div_self haA.ne']
  · intro h
    simp [BBox.iou, h]

/-- C10 witness: the amended statement at a concrete nondegenerate pair. -/
theorem C10_iou_bounds_witness :
    let a : BBox := ⟨0, 0, 2, 2⟩
    let b : BBox := ⟨1, 1, 3, 3⟩
    0 ≤ a.iou b ∧ a.iou b ≤ 1 ∧ a.iou b = b.iou a ∧ a.iou a = 1 ∧
      (a.intersectionArea b = 0 → a.iou b = 0) :=
  C10_iou_bounds ⟨0, 0, 2, 2⟩ ⟨1, 1, 3, 3⟩
    ⟨by norm_num, by norm_num⟩ ⟨by norm_num, by norm_num⟩

theorem Ferrules.extractAux_map_id (W H f : ℚ) (l : List Pred) :
    ∀ c : Int, (extractAux W H f c l).map (·.id) =
      (List.range (extractAux W H f c l).length).map (fun i : Nat => c + (i : Int)) := by
  induction l with
  | nil => intro c; simp [extractAux]
  | cons p rest ih =>
    intro c
    rw [extractAux]
    cases hstep : extractStep W H f p with
    | none => exact ih c
    | some v =>
      obtain ⟨bb, label, proba⟩ := v
      rw [List.map_cons, List.length_cons, List.range_succ_eq_map, List.map_cons,
        List.map_map, ih (c + 1)]
      congr 1
      · simp
      · congr 1
        funext i
        simp only [Function.comp_apply]
        push_cast
        ring

theorem Ferrules.extract_bboxes_id (preds : List Pred) (W H f : ℚ) :
    (extract_bboxes preds W H f).map (·.id) =
      (List.range (extract_bboxes preds W H f).length).map (fun i : Nat => (i : Int)) := by
  have := extractAux_map_id W H f preds 0
  simpa [extract_bboxes] using this

theorem Ferrules.nms_map_id_nodup (l : List LayoutBBox) (t : ℚ)
    (h : (l.map (·.id)).Nodup) : ((nms l t).map (·.id)).Nodup := by
  obtain ⟨s, hs, hsub⟩ := nmsSweep_append t (sortByProbaDesc l) []
  have hnms : nms l t = s := by simpa [nms] using hs
  have hperm : ((sortByProbaDesc l).map (·.id)).Perm (l.map (·.id)) :=
    (List.perm_insertionSort probaGe l).map _
  have hsorted_nodup : ((sortByProbaDesc l).map (·.id)).Nodup :=
    (hperm.nodup_iff).mpr h
  have hsubmap : (s.map (·.id)).Sublist ((sortByProbaDesc l).map (·.id)) :=
    hsub.map _
  rw [hnms]
  exact hsorted_nodup.sublist hsubmap

/-- C8 (amended): ids are unique and assigned in pre-NMS extraction order —
the `i`-th extracted region carries id `i` — and NMS (which reorders by
descending probability) preserves their uniqueness, but not the
index-equals-id correspondence. -/
theorem C8_ids_unique (preds : List Pred) (W H f : ℚ) :
    (∀ i (h : i < (extract_bboxes preds W H f).length),
        ((extract_bboxes preds W H f).get ⟨i, h⟩).id = i) ∧
      ((parse_layout preds W H f).map (·.id)).Nodup := by
  constructor
  · intro i h
    have hm := extract_bboxes_id preds W H f
    have hmap : i < ((extract_bboxes preds W H f).map (·.id)).length := by simpa using h
    have h1 : ((extract_bboxes preds W H f).get ⟨i, h⟩).id
        = ((extract_bboxes preds W H f).map (·.id)).get ⟨i, hmap⟩ := by simp
    rw [h1, List.get_of_eq hm ⟨i, hmap⟩]
    simp
  · apply nms_map_id_nodup
    rw [extract_bboxes_id]
    exact (List.nodup_range _).map (fun a b hab => by simpa using hab)

/-- Two disjoint anchors used to exercise extraction and NMS concretely:
`predA` scores 0.5, `predB` scores 0.9. -/
def Ferrules.predA : Pred :=
  { cx := 100, cy := 100, w := 100, h := 100
    classes := [1/2, 0, 0, 0, 0, 0, 0, 0, 0, 0, 0] }

/-- See `Ferrules.predA`. -/
def Ferrules.predB : Pred :=
  { cx := 500, cy := 500, w := 100, h := 100
    classes := [9/10, 0, 0, 0, 0, 0, 0, 0, 0, 0, 0] }

/-- C8 counterexample: the claim says the `i`-th region of the returned
vector carries id `i`; after NMS the regions are ordered by descending
probability, so here the 0-th returned region carries id 1. -/
theorem C8_counterexample :
    (parse_layout [Ferrules.predA, Ferrules.predB] 1024 1024 1).map (·.id) = [1, 0] := by
  norm_num [parse_layout, extract_bboxes, extractAux, extractStep, lastArgmax,
    lastArgmaxGo, ID2LABEL, CONF_THRESHOLD, REQUIRED_WIDTH, REQUIRED_HEIGHT,
    nms, sortByProbaDesc, List.insertionSort, List.orderedInsert, probaGe,
    nmsSweep, IOU_THRESHOLD, BBox.relaxed_iou, BBox.intersectionArea,
    BBox.overlapX, BBox.overlapY, BBox.area, BBox.width, BBox.height,
    Ferrules.predA, Ferrules.predB]

/-- C8 witness: the amended statement applied at the concrete anchors. -/
theorem C8_ids_unique_witness :
    (∀ i (h : i < (extract_bboxes [Ferrules.predA, Ferrules.predB] 1024 1024 1).length),
        ((extract_bboxes [Ferrules.predA, Ferrules.predB] 1024 1024 1).get ⟨i, h⟩).id = i) ∧
      ((parse_layout [Ferrules.predA, Ferrules.predB] 1024 1024 1).map (·.id)).Nodup :=
  C8_ids_unique [Ferrules.predA, Ferrules.predB] 1024 1024 1

theorem Ferrules.is_text_block_iff (b : LayoutBBox) :
    b.is_text_block = true ↔ (b.label ≠ Label.picture ∧ b.label ≠ Label.table) := by
  cases hl : b.label <;> simp [LayoutBBox.is_text_block, hl]

/-- C6: `needs_ocr` is true iff the total area of textual layout regions
(every label except Picture and Table) is zero or the ratio of the native
lines' total bbox area to that total is strictly below 0.5; when it is
false the native lines are kept, and when it is true and the OCR call
succeeds the OCR lines replace the native ones. -/
theorem C6_ocr_decision (page_layout : List LayoutBBox) (native : List Line)
    (ocr : Option (List OCRLine))
    (hBoxes : ∀ b ∈ page_layout, 0 ≤ b.bbox.area) :
    ((parse_page_text native page_layout ocr).2 = true ↔
        ((page_layout.filter fun b =>
            decide (b.label ≠ Label.picture ∧ b.label ≠ Label.table)).map
          (fun b => b.bbox.area)).sum = 0 ∨
        (native.map (fun l => l.bbox.area)).sum /
            ((page_layout.filter fun b =>
                decide (b.label ≠ Label.picture ∧ b.label ≠ Label.table)).map
              (fun b => b.bbox.area)).sum < 1 / 2) ∧
      (∀ b : LayoutBBox, b.is_text_block = true ↔
        (b.label ≠ Label.picture ∧ b.label ≠ Label.table)) ∧
      ((parse_page_text native page_layout ocr).2 = false →
        (parse_page_text native page_layout ocr).1 = native) ∧
      (∀ ls, (parse_page_text native page_layout ocr).2 = true → ocr = some ls →
        (parse_page_text native page_layout ocr).1 = ls.map OCRLine.to_line) := by
  have hfilter : page_layout.filter (fun b => b.is_text_block) =
      page_layout.filter (fun b =>
        decide (b.label ≠ Label.picture ∧ b.label ≠ Label.table)) := by
    refine List.filter_congr ?_
    intro x _
    cases hl : x.label <;> simp [LayoutBBox.is_text_block, hl]
  have hsnd : (parse_page_text native page_layout ocr).2 =
      page_needs_ocr (page_layout.filter fun b => b.is_text_block) native := rfl
  refine ⟨?_, fun b => is_text_block_iff b, ?_, ?_⟩
  · rw [hsnd, hfilter, page_needs_ocr]
    have hA : 0 ≤ ((page_layout.filter fun b =>
        decide (b.label ≠ Label.picture ∧ b.label ≠ Label.table)).map
          (fun b => b.bbox.area)).sum := by
      apply List.sum_nonneg
      intro x hx
      simp only [List.mem_map] at hx
      obtain ⟨b, hb, rfl⟩ := hx
      exact hBoxes b (List.mem_filter.mp hb).1
    split_ifs with hpos
    · simp only [decide_eq_true_eq]
      constructor
      · exact Or.inr
      · rintro (h0 | hr)
        · exact absurd h0 (ne_of_gt hpos)
        · exact hr
    · simp only [true_iff]
      exact Or.inl (le_antisymm (not_lt.mp hpos) hA)
  · intro h
    rw [hsnd] at h
    simp [parse_page_text, h]
  · intro ls h hocr
    rw [hsnd] at h
    simp [parse_page_text, h, hocr]

/-- C6 witness: scenario S5 — textual region area 100, native line area 40
(ratio 0.4 < 0.5). -/
theorem C6_ocr_decision_witness :
    let box : LayoutBBox := { id := 0, bbox := ⟨0, 0, 10, 10⟩, label := .text, proba := 1 }
    let line : Line := { text := "x", bbox := ⟨0, 0, 10, 4⟩, rotation := 0 }
    ((parse_page_text [line] [box] (some [])).2 = true ↔
        (([box].filter fun b =>
            decide (b.label ≠ Label.picture ∧ b.label ≠ Label.table)).map
          (fun b => b.bbox.area)).sum = 0 ∨
        (([line] : List Line).map (fun l => l.bbox.area)).sum /
            (([box].filter fun b =>
                decide (b.label ≠ Label.picture ∧ b.label ≠ Label.table)).map
              (fun b => b.bbox.area)).sum < 1 / 2) ∧
      (∀ b : LayoutBBox, b.is_text_block = true ↔
        (b.label ≠ Label.picture ∧ b.label ≠ Label.table)) ∧
      ((parse_page_text [line] [box] (some [])).2 = false →
        (parse_page_text [line] [box] (some [])).1 = [line]) ∧
      (∀ ls, (parse_page_text [line] [box] (some [])).2 = true → some [] = some ls →
        (parse_page_text [line] [box] (some [])).1 = ls.map OCRLine.to_line) := by
  intro box line
  refine C6_ocr_decision [box] [line] (some []) ?_
  intro b hb
  rw [List.mem_singleton.mp hb]
  norm_num [BBox.area, BBox.width, BBox.height]

/-- C4 (code evaluation): in `merge_or_create_elements`, when the bucket is
empty the line is pushed into the synthesized element at creation and then
again through the matched-element lookup, so the single assigned line "t"
yields element text "t t". -/
theorem C4_first_line_pushed_twice :
    (merge_or_create_elements []
        { text := "t", bbox := ⟨0, 0, 10, 10⟩, rotation := 0 }
        { id := 7, bbox := ⟨0, 0, 10, 10⟩, label := .text, proba := 1 } 0).map
      (fun e => e.text_block.text) = ["t t"] := by
  rfl

theorem Ferrules.push_line_id (e : Element) (line : Line) :
    (e.push_line line).id = e.id ∧ (e.push_line line).kind = e.kind := by
  unfold Element.push_line
  split <;> exact ⟨rfl, rfl⟩

theorem Ferrules.updateFirst_push_line_map (line : Line) (p : Element → Prop)
    [DecidablePred p] :
    ∀ (l l' : List Element), updateFirst p (fun e => e.push_line line) l = some l' →
      l'.map (fun e => (e.id, e.kind)) = l.map (fun e => (e.id, e.kind)) := by
  intro l
  induction l with
  | nil => intro l' h; simp [updateFirst] at h
  | cons x rest ih =>
    intro l' h
    rw [updateFirst] at h
    split at h
    · rw [Option.some_inj] at h
      subst h
      simp [List.map_cons, (push_line_id x line).1, (push_line_id x line).2]
    · rw [Option.map_eq_some'] at h
      obtain ⟨r', hr', rfl⟩ := h
      simp [List.map_cons, ih r' hr']

theorem Ferrules.from_layout_block_kind (n m : Nat) (lb : LayoutBBox) (pid qid : Nat) :
    (Element.from_layout_block n lb pid).kind = (Element.from_layout_block m lb qid).kind := rfl

theorem Ferrules.merge_or_create_invariant (elements : List Element) (line : Line)
    (lb : LayoutBBox) (pid : Nat) (K : ElementType → Prop)
    (hK : ∀ e ∈ elements, K e.kind)
    (hKnew : K (Element.from_layout_block 0 lb pid).kind)
    (hp : (elements.map (fun e => e.id)).Pairwise (· < ·))
    (hbd : ∀ e ∈ elements, e.id ≤ elements.length) :
    (∀ e ∈ merge_or_create_elements elements line lb pid, K e.kind) ∧
      ((merge_or_create_elements elements line lb pid).map (fun e => e.id)).Pairwise (· < ·) ∧
      (∀ e ∈ merge_or_create_elements elements line lb pid,
        e.id ≤ (merge_or_create_elements elements line lb pid).length) := by
  unfold merge_or_create_elements
  set l₁ := (if elements.isEmpty then
      elements ++ [(Element.from_layout_block 0 lb pid).push_line line]
    else elements) with hl₁
  have hK₁ : ∀ e ∈ l₁, K e.kind := by
    rw [hl₁]
    split
    · rename_i hempty
      rw [List.isEmpty_iff.mp hempty]
      intro e he
      rw [List.nil_append, List.mem_singleton] at he
      subst he
      rw [(push_line_id _ line).2]
      exact hKnew
    · exact hK
  have hp₁ : (l₁.map (fun e => e.id)).Pairwise (· < ·) := by
    rw [hl₁]
    split
    · rename_i hempty
      rw [List.isEmpty_iff.mp hempty]
      simp
    · exact hp
  have hbd₁ : ∀ e ∈ l₁, e.id ≤ l₁.length := by
    rw [hl₁]
    split
    · rename_i hempty
      rw [List.isEmpty_iff.mp hempty]
      intro e he
      rw [List.nil_append, List.mem_singleton] at he
      subst he
      rw [(push_line_id _ line).1]
      simp [Element.from_layout_block]
    · exact hbd
  clear hl₁ hK hp hbd
  cases hup : updateFirst (fun e => e.layout_block_id = lb.id)
      (fun e => e.push_line line) l₁ with
  | some updated =>
    simp only [hup]
    have hmap := updateFirst_push_line_map line _ l₁ updated hup
    have hids : updated.map (fun e => e.id) = l₁.map (fun e => e.id) := by
      have h1 : updated.map (fun e => e.id) =
          (updated.map (fun e => (e.id, e.kind))).map (fun p => p.1) := by
        rw [List.map_map]; rfl
      rw [h1, hmap, List.map_map]; rfl
    have hlen : updated.length = l₁.length := by
      have := congrArg List.length hmap
      simpa using this
    refine ⟨?_, ?_, ?_⟩
    · intro e he
      have : (e.id, e.kind) ∈ l₁.map (fun e => (e.id, e.kind)) := by
        rw [← hmap]
        exact List.mem_map_of_mem _ he
      rw [List.mem_map] at this
      obtain ⟨e₀, he₀, heq⟩ := this
      have : e₀.kind = e.kind := congrArg Prod.snd heq
      rw [← this]
      exact hK₁ e₀ he₀
    · rw [hids]; exact hp₁
    · intro e he
      have : (e.id, e.kind) ∈ l₁.map (fun e => (e.id, e.kind)) := by
        rw [← hmap]
        exact List.mem_map_of_mem _ he
      rw [List.mem_map] at this
      obtain ⟨e₀, he₀, heq⟩ := this
      have hid : e₀.id = e.id := congrArg Prod.fst heq
      rw [hlen, ← hid]
      exact hbd₁ e₀ he₀
  | none =>
    simp only [hup]
    refine ⟨?_, ?_, ?_⟩
    · intro e he
      rw [List.mem_append, List.mem_singleton] at he
      rcases he with he | he
      · exact hK₁ e he
      · subst he
        rw [(push_line_id _ line).2]
        exact hKnew
    · rw [List.map_append]
      rw [List.pairwise_append]
      refine ⟨hp₁, by simp, ?_⟩
      intro a ha bb hb
      simp only [List.map_cons, List.map_nil, List.mem_singleton] at hb
      rw [List.mem_map] at ha
      obtain ⟨e₀, he₀, rfl⟩ := ha
      rw [hb, (push_line_id _ line).1]
      simp only [Element.from_layout_block]
      exact Nat.lt_succ_of_le (hbd₁ e₀ he₀)
    · intro e he
      rw [List.mem_append, List.mem_singleton] at he
      rw [List.length_append, List.length_singleton]
      rcases he with he | he
      · exact Nat.le_succ_of_le (hbd₁ e he)
      · subst he
        rw [(push_line_id _ line).1]
        simp [Element.from_layout_block]

/-- Invariant of one routing bucket: all kinds satisfy `K`, ids are strictly
increasing (hence unique within the bucket), and each id is at most the
bucket length. -/
def BucketInv (K : ElementType → Prop) (l : List Element) : Prop :=
  (∀ e ∈ l, K e.kind) ∧ ((l.map (fun e => e.id)).Pairwise (· < ·)) ∧
    ∀ e ∈ l, e.id ≤ l.length

/-- Invariant of the routing state of `merge_lines_layout`. -/
def RouteInv (st : List Element × List Element × List Element) : Prop :=
  BucketInv (· = ElementType.header) st.1 ∧
    BucketInv (fun k => k ≠ ElementType.header ∧ k ≠ ElementType.footer) st.2.1 ∧
    BucketInv (· = ElementType.footer) st.2.2

theorem Ferrules.mergeLinesStep_invariant (layout_boxes : List LayoutBBox) (page_id : Nat)
    (st : List Element × List Element × List Element) (line : Line)
    (hst : RouteInv st) : RouteInv (mergeLinesStep layout_boxes page_id st line) := by
  obtain ⟨hs, bs, fs⟩ := st
  obtain ⟨⟨hK1, hp1, hb1⟩, ⟨hK2, hp2, hb2⟩, ⟨hK3, hp3, hb3⟩⟩ := hst
  unfold mergeLinesStep
  cases hm : lineMatch layout_boxes line with
  | none => exact ⟨⟨hK1, hp1, hb1⟩, ⟨hK2, hp2, hb2⟩, ⟨hK3, hp3, hb3⟩⟩
  | some lb =>
    dsimp only
    cases hl : lb.label
    case pageHeader =>
      have hinv := merge_or_create_invariant hs line lb page_id
        (· = ElementType.header) hK1
        (by simp [Element.from_layout_block, hl]) hp1 hb1
      exact ⟨⟨hinv.1, hinv.2.1, hinv.2.2⟩, ⟨hK2, hp2, hb2⟩, ⟨hK3, hp3, hb3⟩⟩
    case pageFooter =>
      have hinv := merge_or_create_invariant fs line lb page_id
        (· = ElementType.footer) hK3
        (by simp [Element.from_layout_block, hl]) hp3 hb3
      exact ⟨⟨hK1, hp1, hb1⟩, ⟨hK2, hp2, hb2⟩, ⟨hinv.1, hinv.2.1, hinv.2.2⟩⟩
    all_goals {
      have hinv := merge_or_create_invariant bs line lb page_id
        (fun k => k ≠ ElementType.header ∧ k ≠ ElementType.footer) hK2
        (by simp [Element.from_layout_block, hl]) hp2 hb2
      exact ⟨⟨hK1, hp1, hb1⟩, ⟨hinv.1, hinv.2.1, hinv.2.2⟩, ⟨hK3, hp3, hb3⟩⟩
    }

theorem Ferrules.route_foldl_invariant (layout_boxes : List LayoutBBox) (page_id : Nat)
    (lines : List Line) :
    ∀ st, RouteInv st →
      RouteInv (lines.foldl (mergeLinesStep layout_boxes page_id) st) := by
  induction lines with
  | nil => intro st h; simpa using h
  | cons line rest ih =>
    intro st h
    rw [List.foldl_cons]
    exact ih _ (mergeLinesStep_invariant layout_boxes page_id st line h)

/-- C9 (amended): `merge_lines_layout` returns `headers ++ body ++ footers`,
where the headers bucket holds exactly Header-kind elements, the body bucket
holds neither Header nor Footer kinds, and the footers bucket holds
Footer-kind elements; ids are strictly increasing within each bucket (hence
unique there), but they are bucket-local — no page-wide renumbering
happens. -/
theorem C9_bucket_order (layout_boxes : List LayoutBBox) (lines : List Line)
    (page_id : Nat) :
    ∃ h b f, merge_lines_layout layout_boxes lines page_id = h ++ b ++ f ∧
      (∀ e ∈ h, e.kind = ElementType.header) ∧
      (∀ e ∈ b, e.kind ≠ ElementType.header ∧ e.kind ≠ ElementType.footer) ∧
      (∀ e ∈ f, e.kind = ElementType.footer) ∧
      ((h.map (fun e => e.id)).Pairwise (· < ·)) ∧
      ((b.map (fun e => e.id)).Pairwise (· < ·)) ∧
      ((f.map (fun e => e.id)).Pairwise (· < ·)) := by
  have hinv := route_foldl_invariant layout_boxes page_id lines ([], [], [])
    ⟨⟨by simp, by simp, by simp⟩, ⟨by simp, by simp, by simp⟩, ⟨by simp, by simp, by simp⟩⟩
  obtain ⟨⟨hK1, hp1, _⟩, ⟨hK2, hp2, _⟩, ⟨hK3, hp3, _⟩⟩ := hinv
  refine ⟨_, _, _, ?_, hK1, hK2, hK3, hp1, hp2, hp3⟩
  unfold merge_lines_layout
  rw [List.append_assoc]

/-- C9 witness: the amended statement at a concrete page (two header lines
and an unmatched picture region). -/
theorem C9_bucket_order_witness :
    ∃ h b f,
      merge_lines_layout
          [{ id := 0, bbox := ⟨0, 0, 10, 10⟩, label := .pageHeader, proba := 9/10 },
           { id := 1, bbox := ⟨20, 0, 30, 10⟩, label := .pageHeader, proba := 9/10 },
           { id := 2, bbox := ⟨0, 30, 10, 40⟩, label := .picture, proba := 9/10 }]
          [{ text := "h1", bbox := ⟨0, 0, 10, 10⟩, rotation := 0 },
           { text := "h2", bbox := ⟨20, 0, 30, 10⟩, rotation := 0 }] 0 = h ++ b ++ f ∧
        (∀ e ∈ h, e.kind = ElementType.header) ∧
        (∀ e ∈ b, e.kind ≠ ElementType.header ∧ e.kind ≠ ElementType.footer) ∧
        (∀ e ∈ f, e.kind = ElementType.footer) ∧
        ((h.map (fun e => e.id)).Pairwise (· < ·)) ∧
        ((b.map (fun e => e.id)).Pairwise (· < ·)) ∧
        ((f.map (fun e => e.id)).Pairwise (· < ·)) :=
  C9_bucket_order _ _ 0

theorem Ferrules.isEmpty_nil_string : "".isEmpty = true := rfl

theorem Ferrules.isEmpty_h1 : "h1".isEmpty = false := rfl

theorem Ferrules.isEmpty_h2 : "h2".isEmpty = false := rfl

set_option maxHeartbeats 2000000 in
/-- C9 counterexample: on the same concrete page, `build_page_elements`
emits ids `[2, 0, 2]` — not the claimed fresh ids `0, 1, 2` — and the
unmatched picture region is inserted *before* the headers, so the final
list is not `headers ++ body ++ footers` either. -/
theorem C9_counterexample :
    (build_page_elements
        [{ id := 0, bbox := ⟨0, 0, 10, 10⟩, label := .pageHeader, proba := 9/10 },
         { id := 1, bbox := ⟨20, 0, 30, 10⟩, label := .pageHeader, proba := 9/10 },
         { id := 2, bbox := ⟨0, 30, 10, 40⟩, label := .picture, proba := 9/10 }]
        [{ text := "h1", bbox := ⟨0, 0, 10, 10⟩, rotation := 0 },
         { text := "h2", bbox := ⟨20, 0, 30, 10⟩, rotation := 0 }] 0).map
      (fun e => (e.id, e.kind)) =
      [(2, ElementType.image), (0, ElementType.header), (2, ElementType.header)] := by
  norm_num [build_page_elements, merge_lines_layout, mergeLinesStep, lineMatch,
    maxByLast, minByFirst, merge_or_create_elements, updateFirst,
    Element.from_layout_block, Element.push_line, ElementText.is_empty,
    ElementText.push_first, ElementText.append_line, merge_remaining,
    firstArgminIdx, insertAt, List.enum, List.enumFrom, MIN_INTERSECTION_LAYOUT,
    LAYOUT_DISTANCE_X_WEIGHT, LAYOUT_DISTANCE_Y_WEIGHT,
    MAXIMUM_ASSIGNMENT_DISTANCE, BBox.intersectionArea, BBox.overlapX,
    BBox.overlapY, BBox.area, BBox.width, BBox.height, BBox.distance,
    BBox.center, List.foldl_cons, List.foldl_nil, List.filter, List.contains,
    List.elem, Option.getD, Option.map, isEmpty_nil_string, isEmpty_h1,
    isEmpty_h2]

/-- C2 (code evaluation): the block merger under `src/` takes no title-level
map and emits level 0 for every Title/Subtitle element — here a Title on
page 3 with element id 5, for which the computed map would hold level 2. -/
theorem C2_title_level_always_zero :
    merge_elements_into_blocks
        [{ id := 5, layout_block_id := 0, text_block := ⟨"T"⟩, kind := .title,
           page_id := 3, bbox := ⟨0, 0, 1, 1⟩ }] =
      .ok [{ id := 0, kind := .title ⟨0, "T"⟩, pages_id := [3], bbox := ⟨0, 0, 1, 1⟩ }] := by
  simp [merge_elements_into_blocks, mergeAux, titleBlockOf, Except.map]

/-- C3 (code evaluation): two consecutive Header elements make the merger
reach the `todo!()` arm of `Block::merge` (modelled as an error — the
source panics); same for two consecutive Footer elements. -/
theorem C3_header_run_panics :
    merge_elements_into_blocks
        [{ id := 0, layout_block_id := 0, text_block := ⟨"a"⟩, kind := .header,
           page_id := 0, bbox := ⟨0, 0, 1, 1⟩ },
         { id := 1, layout_block_id := 1, text_block := ⟨"b"⟩, kind := .header,
           page_id := 0, bbox := ⟨0, 1, 1, 2⟩ }] =
      .error "panic in Block merge: not yet implemented" ∧
    merge_elements_into_blocks
        [{ id := 0, layout_block_id := 0, text_block := ⟨"a"⟩, kind := .footer,
           page_id := 0, bbox := ⟨0, 0, 1, 1⟩ },
         { id := 1, layout_block_id := 1, text_block := ⟨"b"⟩, kind := .footer,
           page_id := 0, bbox := ⟨0, 1, 1, 2⟩ }] =
      .error "panic in Block merge: not yet implemented" := by
  constructor <;>
    simp [merge_elements_into_blocks, mergeAux, greedyRun, headerBlockOf,
      footerBlockOf, Block.mergeEl]

theorem Ferrules.captionLoop_image_run (caps : List Element) :
    ∀ (curr : Element) (n : Nat) (img : Element) (rest : List Element),
      (∀ e ∈ caps, e.kind = ElementType.caption ∨ e.kind = ElementType.footNote) →
      img.kind = ElementType.image →
      (captionLoop curr n (caps ++ img :: rest)).1 =
          { id := n,
            kind := .image ⟨some (caps.foldl
              (fun acc e => acc ++ " " ++ e.text_block.text) curr.text_block.text)⟩,
            pages_id := [img.page_id], bbox := curr.bbox.merge img.bbox } ∧
        (captionLoop curr n (caps ++ img :: rest)).2.1 = rest := by
  induction caps with
  | nil =>
    intro curr n img rest _ himg
    constructor <;> simp only [List.nil_append, captionLoop, himg, List.foldl_nil]
  | cons e caps ih =>
    intro curr n img rest hcaps himg
    have hrec := ih { curr with text_block := curr.text_block.append_line e.text_block.text }
      n img rest (fun x hx => hcaps x (List.mem_cons_of_mem e hx)) himg
    have he := hcaps e (List.mem_cons_self e caps)
    simp only [ElementText.append_line] at hrec
    rcases he with he | he <;>
    · constructor <;>
        simp only [List.cons_append, List.append_eq, captionLoop, he,
          ElementText.append_line, List.foldl_cons, hrec.1, hrec.2]

theorem Ferrules.captionLoop_stop (c : Element) (n : Nat) (e : Element)
    (rest : List Element) (hcap : e.kind ≠ ElementType.caption)
    (hfn : e.kind ≠ ElementType.footNote) (himg : e.kind ≠ ElementType.image) :
    (captionLoop c n (e :: rest)).1 = textBlockOf n c ∧
      (captionLoop c n (e :: rest)).2.1 = e :: rest := by
  cases hek : e.kind <;>
    first
    | exact absurd hek hcap
    | exact absurd hek hfn
    | exact absurd hek himg
    | exact ⟨by simp only [captionLoop, hek], by simp only [captionLoop, hek]⟩

theorem Ferrules.mergeAux_caption_cons (c : Element)
    (hc : c.kind = ElementType.caption ∨ c.kind = ElementType.footNote)
    (x : Element) (xs : List Element) (n : Nat) :
    mergeAux (c :: x :: xs) n =
      (mergeAux (captionLoop c n (x :: xs)).2.1 (n + 1)).map
        ((captionLoop c n (x :: xs)).1 :: ·) := by
  rcases hc with hc | hc <;>
  · simp only [mergeAux, hc]

/-- C5: in the block merger, a run of Caption/Footnote elements directly
followed by an Image yields a single Image block whose caption is the
space-joined caption text and whose bbox merges the first caption's and the
image's bboxes; a Caption with no following element becomes a TextBlock;
and a Caption followed by any other kind becomes a TextBlock without
consuming the next element. -/
theorem C5_caption_state_machine :
    (∀ (c : Element) (caps : List Element) (img : Element) (rest : List Element) (n : Nat),
        (c.kind = ElementType.caption ∨ c.kind = ElementType.footNote) →
        (∀ e ∈ caps, e.kind = ElementType.caption ∨ e.kind = ElementType.footNote) →
        img.kind = ElementType.image →
        mergeAux (c :: (caps ++ img :: rest)) n =
          (mergeAux rest (n + 1)).map
            (({ id := n,
                kind := .image ⟨some (caps.foldl
                  (fun acc e => acc ++ " " ++ e.text_block.text) c.text_block.text)⟩,
                pages_id := [img.page_id], bbox := c.bbox.merge img.bbox } : Block) :: ·)) ∧
      (∀ (c : Element) (n : Nat), (c.kind = ElementType.caption ∨ c.kind = ElementType.footNote) →
        mergeAux [c] n = .ok [textBlockOf n c]) ∧
      (∀ (c e : Element) (rest : List Element) (n : Nat),
        (c.kind = ElementType.caption ∨ c.kind = ElementType.footNote) →
        e.kind ≠ ElementType.caption → e.kind ≠ ElementType.footNote →
        e.kind ≠ ElementType.image →
        mergeAux (c :: e :: rest) n =
          (mergeAux (e :: rest) (n + 1)).map (textBlockOf n c :: ·)) := by
  refine ⟨?_, ?_, ?_⟩
  · intro c caps img rest n hc hcaps himg
    obtain ⟨h1, h2⟩ := captionLoop_image_run caps c n img rest hcaps himg
    cases caps with
    | nil =>
      rw [List.nil_append] at h1 h2 ⊢
      rw [mergeAux_caption_cons c hc img rest n, h1, h2]
    | cons e caps =>
      rw [List.cons_append] at h1 h2 ⊢
      rw [mergeAux_caption_cons c hc e (caps ++ img :: rest) n, h1, h2]
  · intro c n hc
    rcases hc with hc | hc <;>
    · simp only [mergeAux, hc, captionLoop, Except.map]
  · intro c e rest n hc hcap hfn himg
    have hcl := captionLoop_stop c n e rest hcap hfn himg
    rw [mergeAux_caption_cons c hc e rest n, hcl.1, hcl.2]

/-- C5 witness: scenario S1 (caption then image), the orphan caption S2,
and a caption followed by plain text, with the theorem applied at these
concrete elements. -/
theorem C5_caption_state_machine_witness :
    (mergeAux
        ({ id := 0, layout_block_id := 0, text_block := ⟨"Fig 1"⟩, kind := .caption,
           page_id := 1, bbox := ⟨0, 0, 2, 2⟩ } ::
          ([] ++ { id := 1, layout_block_id := 0, text_block := ⟨""⟩, kind := .image,
                   page_id := 1, bbox := ⟨0, 21/10, 2, 41/10⟩ } :: [])) 0 =
      (mergeAux [] 1).map
        (({ id := 0,
            kind := .image ⟨some (([] : List Element).foldl
              (fun acc e => acc ++ " " ++ e.text_block.text) "Fig 1")⟩,
            pages_id := [1],
            bbox := BBox.merge ⟨0, 0, 2, 2⟩ ⟨0, 21/10, 2, 41/10⟩ } : Block) :: ·)) ∧
    mergeAux
        [{ id := 0, layout_block_id := 0, text_block := ⟨"lone"⟩, kind := .caption,
           page_id := 1, bbox := ⟨0, 0, 2, 2⟩ }] 0 =
      .ok [textBlockOf 0
        { id := 0, layout_block_id := 0, text_block := ⟨"lone"⟩, kind := .caption,
          page_id := 1, bbox := ⟨0, 0, 2, 2⟩ }] ∧
    mergeAux
        ({ id := 0, layout_block_id := 0, text_block := ⟨"cap"⟩, kind := .caption,
           page_id := 1, bbox := ⟨0, 0, 2, 2⟩ } ::
         { id := 1, layout_block_id := 0, text_block := ⟨"tail"⟩, kind := .text,
           page_id := 1, bbox := ⟨0, 3, 2, 4⟩ } :: []) 0 =
      (mergeAux
          ({ id := 1, layout_block_id := 0, text_block := ⟨"tail"⟩, kind := .text,
             page_id := 1, bbox := ⟨0, 3, 2, 4⟩ } :: []) 1).map
        (textBlockOf 0
          { id := 0, layout_block_id := 0, text_block := ⟨"cap"⟩, kind := .caption,
            page_id := 1, bbox := ⟨0, 0, 2, 2⟩ } :: ·) :=
  ⟨C5_caption_state_machine.1 _ [] _ [] 0 (Or.inl rfl) (by simp) rfl,
   C5_caption_state_machine.2.1 _ 0 (Or.inl rfl),
   C5_caption_state_machine.2.2 _ _ [] 0 (Or.inl rfl) (by decide) (by decide) (by decide)⟩

/-- C1 (amended): when the page range's end exceeds the page count, the
native worker sends *no* message on the sink channel (the error only
reaches the worker loop, which logs it), and the parse call returns an
empty `ParsedDocument` — not an error. -/
theorem C1_range_check (n : Nat) (pp : Nat → Except String NativePageResult)
    (task : NativePageResult → Except String StructuredPage) (s e : Nat)
    (h : e > n) :
    (handle_parse_native_req n pp (some (s, e))).1 = [] ∧
      (handle_parse_native_req n pp (some (s, e))).2 =
        .error "Page range end exceeds document length" ∧
      parse_document "doc" n pp task (some (s, e)) =
        .ok { doc_name := "doc", pages := [], blocks := [] } := by
  have hmsg : (handle_parse_native_req n pp (some (s, e))).1 = [] := by
    simp [handle_parse_native_req, h]
  refine ⟨hmsg, by simp [handle_parse_native_req, h], ?_⟩
  rw [parse_document, hmsg]
  simp [parse_doc_pages, merge_elements_into_blocks, mergeAux, Except.map,
    List.insertionSort]

/-- C1 witness: a one-page document asked for pages `[0, 2)`. -/
theorem C1_range_check_witness :
    (handle_parse_native_req 1 (fun _ => .error "native failure")
        (some (0, 2))).1 = [] ∧
      (handle_parse_native_req 1 (fun _ => .error "native failure")
          (some (0, 2))).2 =
        .error "Page range end exceeds document length" ∧
      parse_document "doc" 1 (fun _ => .error "native failure")
        (fun _ => .error "task failure") (some (0, 2)) =
        .ok { doc_name := "doc", pages := [], blocks := [] } :=
  C1_range_check 1 (fun _ => .error "native failure")
    (fun _ => .error "task failure") 0 2 (by norm_num)

/-- C1 counterexample: same concrete document; contrary to the claim, the
sink channel receives no error message and the parse call returns `Ok` with
an empty document instead of a structured error. -/
theorem C1_counterexample :
    (handle_parse_native_req 1 (fun _ => .error "native failure")
        (some (0, 2))).1 = [] ∧
      parse_document "doc" 1 (fun _ => .error "native failure")
        (fun _ => .error "task failure") (some (0, 2)) =
        .ok { doc_name := "doc", pages := [], blocks := [] } := by
  constructor
  · simp [handle_parse_native_req]
  · rw [parse_document]
    simp [handle_parse_native_req, parse_doc_pages, merge_elements_into_blocks,
      mergeAux, Except.map, List.insertionSort]
